import Mathlib

/-!
Shallow embedding of `security_monkey/auditors/resource_policy_auditor.py`
(class `ResourcePolicyAuditor`), together with theorems checking the
natural-language specification of the resource-policy cross-account
analysis against it.

The auditor's collaborators (the dpath structured-path query, the
policyuniverse `Policy`/`Statement`/`ARN` parsers, the account
classification registry `inspect_entity`, and the `record_*` finding
sink) are external to the audited source file; they are modelled
abstractly as the fields of a context structure `Ctx`, following the
collaborator contracts of the specification.  The checks, which in the
source record findings through a sink, are modelled as pure functions
returning the list of findings they would record, in recording order.
-/

namespace ResourcePolicyAuditor

/-- A classified principal reference: a `(category, value)` pair.  The same
shape serves for the tuples returned by `Statement.whos_allowed()` and for
the `Entity` objects built from them by `Entity.from_tuple`. -/
structure Entity where
  category : String
  value : String
deriving DecidableEq, Repr

/-- Models `Entity.from_tuple(who)`: an `Entity` is built from the
`(category, value)` pair produced by statement evaluation. -/
def Entity.fromTuple (who : Entity) : Entity :=
  { category := who.category, value := who.value }

/-- The external statement model: `effect`, `actions`, and the result of
`whos_allowed()`. -/
structure Statement where
  effect : String
  actions : List String
  whosAllowed : List Entity
deriving DecidableEq, Repr

/-- The external policy model: its statements and the two whole-policy
internet-exposure verdicts delegated to the policy library
(`is_internet_accessible()` and `internet_accessible_actions()`). -/
structure Policy where
  statements : List Statement
  isInternetAccessible : Bool
  internetAccessibleActions : List String
deriving DecidableEq, Repr

/-- The external ARN parser's observable result for a value string:
`service` is non-null when the value names an AWS service principal, and
`root` is true when the value denotes an account's root identity. -/
structure ARN where
  service : Option String
  root : Bool
deriving DecidableEq, Repr

/-- A raw value found in an item's configuration tree at an extraction
path: a falsy value (`None`, empty mapping, ...), a truthy non-sequence
policy-document object, or a sequence of raw values. -/
inductive Raw (D : Type) where
  | null : Raw D
  | doc : D → Raw D
  | list : List (Raw D) → Raw D

/-- Python truthiness test `not p` on a raw value: `null` is falsy, a
document object is truthy, a sequence is falsy exactly when empty. -/
def Raw.isFalsy {D : Type} : Raw D → Bool
  | .null => true
  | .doc _ => false
  | .list ps => ps.isEmpty

/-- The result of the structured path query (`dpath.util.values`) for one
extraction path: a not-found signal (the `PathNotFound` exception, caught
by `load_policies`) or a located raw value. -/
inductive QueryResult (D : Type) where
  | notFound : QueryResult D
  | found : Raw D → QueryResult D

/-- The five finding categories recorded by the auditor. -/
inductive Category where
  | internet
  | friendly
  | thirdparty
  | unknown
  | rootCrossAccount
deriving DecidableEq, Repr

/-- One recorded finding: its category, the audited item, the responsible
entity, and the action list passed to the recording interface. -/
structure Finding (I : Type) where
  category : Category
  item : I
  entity : Entity
  actions : List String
deriving DecidableEq, Repr

/-- The auditor's configuration and external collaborators: the configured
extraction paths (`policy_keys`), the structured path query, the policy
parser (`Policy(...)`), the ARN parser (`ARN(...)`), and the account
classification registry (`inspect_entity`, returning the set of
relationship tags, here as a list whose membership is what matters). -/
structure Ctx (I D : Type) where
  policyKeys : List String
  query : I → String → QueryResult D
  parsePolicy : Raw D → Policy
  arn : String → ARN
  inspectEntity : Entity → I → List String

variable {I D : Type}

/-- Embedding of `ResourcePolicyAuditor.load_policies`: for each configured
key, query the configuration tree; on `PathNotFound` skip the key; if the
located value is a sequence, skip falsy entries and wrap each remaining
entry as a `Policy`, flattening nested sequences one level; otherwise wrap
the single located value as one `Policy`. -/
def load_policies (ctx : Ctx I D) (item : I) : List Policy :=
  ctx.policyKeys.flatMap fun key =>
    match ctx.query item key with
    | .notFound => []
    | .found (Raw.list ps) =>
        ps.flatMap fun p =>
          if p.isFalsy then []
          else
            match p with
            | Raw.list pps => pps.map ctx.parsePolicy
            | p => [ctx.parsePolicy p]
    | .found v => [ctx.parsePolicy v]

/-- Embedding of `check_internet_accessible`: one `internet` finding per
loaded policy whose internet-reachability verdict is true, carrying the
synthetic everyone entity and the policy's internet-accessible actions. -/
def check_internet_accessible (ctx : Ctx I D) (item : I) : List (Finding I) :=
  (load_policies ctx item).flatMap fun policy =>
    if policy.isInternetAccessible then
      [{ category := Category.internet, item := item,
         entity := { category := "principal", value := "*" },
         actions := policy.internetAccessibleActions }]
    else []

/-- Embedding of `check_friendly_cross_account`: for every policy, every
statement with effect `Allow`, every `who` it allows, record a `friendly`
finding when `FRIENDLY` is in the registry's classification of the
entity. -/
def check_friendly_cross_account (ctx : Ctx I D) (item : I) : List (Finding I) :=
  (load_policies ctx item).flatMap fun policy =>
    policy.statements.flatMap fun statement =>
      if statement.effect ≠ "Allow" then []
      else
        statement.whosAllowed.flatMap fun who =>
          let entity := Entity.fromTuple who
          if "FRIENDLY" ∈ ctx.inspectEntity entity item then
            [{ category := Category.friendly, item := item,
               entity := entity, actions := statement.actions }]
          else []

/-- Embedding of `check_thirdparty_cross_account`: identical to the
friendly check with tag `THIRDPARTY`. -/
def check_thirdparty_cross_account (ctx : Ctx I D) (item : I) : List (Finding I) :=
  (load_policies ctx item).flatMap fun policy =>
    policy.statements.flatMap fun statement =>
      if statement.effect ≠ "Allow" then []
      else
        statement.whosAllowed.flatMap fun who =>
          let entity := Entity.fromTuple who
          if "THIRDPARTY" ∈ ctx.inspectEntity entity item then
            [{ category := Category.thirdparty, item := item,
               entity := entity, actions := statement.actions }]
          else []

/-- Embedding of `check_unknown_cross_account`: skips internet-accessible
policies entirely; within the remaining policies, skips the synthetic
wildcard principal and, for category `principal`, values the ARN parser
reports as a service; records an `unknown` finding when `UNKNOWN` is in
the registry's classification of the entity. -/
def check_unknown_cross_account (ctx : Ctx I D) (item : I) : List (Finding I) :=
  (load_policies ctx item).flatMap fun policy =>
    if policy.isInternetAccessible then []
    else
      policy.statements.flatMap fun statement =>
        if statement.effect ≠ "Allow" then []
        else
          statement.whosAllowed.flatMap fun who =>
            if who.value = "*" ∧ who.category = "principal" then []
            else if who.category = "principal" ∧ (ctx.arn who.value).service.isSome then []
            else
              let entity := Entity.fromTuple who
              if "UNKNOWN" ∈ ctx.inspectEntity entity item then
                [{ category := Category.unknown, item := item,
                   entity := entity, actions := statement.actions }]
              else []

/-- Embedding of `check_root_cross_account`: for every policy, every
`Allow` statement, every allowed `who` of category `arn` or `principal`
whose value is not the wildcard, record a `root-cross-account` finding
when the parsed ARN is a root identity and the registry classification
intersects `{FRIENDLY, THIRDPARTY, UNKNOWN}`. -/
def check_root_cross_account (ctx : Ctx I D) (item : I) : List (Finding I) :=
  (load_policies ctx item).flatMap fun policy =>
    policy.statements.flatMap fun statement =>
      if statement.effect ≠ "Allow" then []
      else
        statement.whosAllowed.flatMap fun who =>
          if who.category ∉ (["arn", "principal"] : List String) then []
          else if who.value = "*" then []
          else
            let arn := ctx.arn who.value
            let entity := Entity.fromTuple who
            if arn.root = true ∧
                ∃ t ∈ ctx.inspectEntity entity item,
                  t ∈ (["FRIENDLY", "THIRDPARTY", "UNKNOWN"] : List String) then
              [{ category := Category.rootCrossAccount, item := item,
                 entity := entity, actions := statement.actions }]
            else []

/-! Spec-side definitions, written from the specification's words, to be
compared with the source embedding above. -/

/-- The generic cross-account check of spec §4.3: iterate every loaded
policy (unless skipped), every `Allow` statement, every allowed entity
(unless skipped), classify the entity through the registry, and record a
finding of category `cat` exactly when `tag` is in the classification. -/
def genericCrossAccount (ctx : Ctx I D) (item : I) (tag : String)
    (cat : Category) (skipPolicy : Policy → Bool) (skipWho : Entity → Bool) :
    List (Finding I) :=
  (load_policies ctx item).flatMap fun policy =>
    if skipPolicy policy then []
    else
      policy.statements.flatMap fun statement =>
        if statement.effect ≠ "Allow" then []
        else
          statement.whosAllowed.flatMap fun who =>
            if skipWho who then []
            else
              let entity := Entity.fromTuple who
              if tag ∈ ctx.inspectEntity entity item then
                [{ category := cat, item := item,
                   entity := entity, actions := statement.actions }]
              else []

/-- The two entity-level exclusions of the unknown check, per spec §4.3:
the synthetic wildcard principal, and (for category `principal`) values
the ARN parser reports as an AWS service. -/
def unknownWhoSkip (ctx : Ctx I D) (who : Entity) : Bool :=
  (who.value == "*" && who.category == "principal") ||
    (who.category == "principal" && (ctx.arn who.value).service.isSome)

/-- The qualification predicate of spec §4.4 for one allowed entity: its
category is `arn` or `principal`, its value is not the wildcard, its ARN
parses as a root identity, and its registry classification intersects
`{FRIENDLY, THIRDPARTY, UNKNOWN}`. -/
def rootQualifies (ctx : Ctx I D) (item : I) (who : Entity) : Bool :=
  (who.category == "arn" || who.category == "principal") &&
    who.value != "*" &&
    (ctx.arn who.value).root &&
    (ctx.inspectEntity (Entity.fromTuple who) item).any fun t =>
      t == "FRIENDLY" || t == "THIRDPARTY" || t == "UNKNOWN"

/-- The qualifying (Allow statement, granted entity) pairs of spec §4.4,
in iteration order. -/
def rootQualifying (ctx : Ctx I D) (item : I) : List (Statement × Entity) :=
  (load_policies ctx item).flatMap fun policy =>
    policy.statements.flatMap fun statement =>
      if statement.effect ≠ "Allow" then []
      else
        (statement.whosAllowed.filter (rootQualifies ctx item)).map
          fun who => (statement, who)

/-- Spec §4.1's processing of one located value by shape: absent is
skipped silently; a sequence is flattened one level, skipping null/empty
entries and wrapping each remaining element as a `Policy`; a single
policy-document object is wrapped as one `Policy`. -/
def processLocated (parse : Raw D → Policy) : QueryResult D → List Policy
  | .notFound => []
  | .found (Raw.list entries) =>
      entries.flatMap fun entry =>
        if entry.isFalsy then []
        else
          match entry with
          | Raw.list inner => inner.map parse
          | entry => [parse entry]
  | .found v => [parse v]

/-- A context whose policy parser is post-composed with a policy
transformation; used to state that a check ignores parts of the parsed
policies. -/
def Ctx.mapParse (ctx : Ctx I D) (g : Policy → Policy) : Ctx I D :=
  { ctx with parsePolicy := fun d => g (ctx.parsePolicy d) }

/-- Removes the `Deny` statements of a policy, leaving the whole-policy
internet verdicts untouched. -/
def Policy.dropDeny (p : Policy) : Policy :=
  { p with statements := p.statements.filter fun s => s.effect != "Deny" }

/-! Concrete instances used to evaluate the checks on explicit inputs. -/

/-- A policy with one `Allow` statement granting a category-`arn` entity
whose value names an AWS service. -/
def policyA : Policy :=
  { statements :=
      [{ effect := "Allow", actions := ["s3:GetObject"],
         whosAllowed := [{ category := "arn", value := "sns.amazonaws.com" }] }],
    isInternetAccessible := false,
    internetAccessibleActions := [] }

/-- A context whose single policy is `policyA`, whose ARN parser reports
`sns.amazonaws.com` as a service principal, and whose registry tags every
entity `UNKNOWN`. -/
def cxA : Ctx Nat Nat :=
  { policyKeys := ["Policy"],
    query := fun _ _ => QueryResult.found (Raw.doc 0),
    parsePolicy := fun _ => policyA,
    arn := fun v =>
      if v = "sns.amazonaws.com" then { service := some "sns", root := false }
      else { service := none, root := false },
    inspectEntity := fun _ _ => ["UNKNOWN"] }

/-- The finding the unknown check records under `cxA`. -/
def findingA : Finding Nat :=
  { category := Category.unknown, item := 0,
    entity := { category := "arn", value := "sns.amazonaws.com" },
    actions := ["s3:GetObject"] }

/-- An internet-accessible policy with one `Allow` statement granting an
account-id entity and one `Deny` statement. -/
def policyB : Policy :=
  { statements :=
      [{ effect := "Allow", actions := ["s3:GetObject"],
         whosAllowed := [{ category := "arn", value := "111111111111" }] },
       { effect := "Deny", actions := ["s3:PutObject"],
         whosAllowed := [{ category := "arn", value := "222222222222" }] }],
    isInternetAccessible := true,
    internetAccessibleActions := ["s3:GetObject"] }

/-- A context whose single policy is `policyB` and whose registry tags
every entity both `FRIENDLY` and `UNKNOWN`. -/
def cxB : Ctx Nat Nat :=
  { policyKeys := ["Policy"],
    query := fun _ _ => QueryResult.found (Raw.doc 0),
    parsePolicy := fun _ => policyB,
    arn := fun _ => { service := none, root := false },
    inspectEntity := fun _ _ => ["FRIENDLY", "UNKNOWN"] }

/-- A context extensionally equal to `cxB` whose collaborator functions are
written differently. -/
def cxB2 : Ctx Nat Nat :=
  { policyKeys := ["Pol" ++ "icy"],
    query := fun _ _ => QueryResult.found (Raw.doc (0 + 0)),
    parsePolicy := fun _ => policyB,
    arn := fun _ => { service := none, root := false },
    inspectEntity := fun _ _ => ["FRIENDLY"] ++ ["UNKNOWN"] }

/-- The finding the friendly check records under `cxB`. -/
def findingB : Finding Nat :=
  { category := Category.friendly, item := 0,
    entity := { category := "arn", value := "111111111111" },
    actions := ["s3:GetObject"] }

/-- The finding the generic `UNKNOWN` instance without the policy-level
internet skip records under `cxB`. -/
def findingBU : Finding Nat :=
  { category := Category.unknown, item := 0,
    entity := { category := "arn", value := "111111111111" },
    actions := ["s3:GetObject"] }

/-- A policy whose single `Allow` statement has an empty action list. -/
def policyC : Policy :=
  { statements :=
      [{ effect := "Allow", actions := [],
         whosAllowed := [{ category := "principal", value := "111111111111" }] }],
    isInternetAccessible := false,
    internetAccessibleActions := [] }

/-- A context whose single policy is `policyC` and whose registry tags
every entity `FRIENDLY`. -/
def cxC : Ctx Nat Nat :=
  { policyKeys := ["Policy"],
    query := fun _ _ => QueryResult.found (Raw.doc 0),
    parsePolicy := fun _ => policyC,
    arn := fun _ => { service := none, root := false },
    inspectEntity := fun _ _ => ["FRIENDLY"] }

/-- The empty-action-list finding the friendly check records under `cxC`. -/
def findingC : Finding Nat :=
  { category := Category.friendly, item := 0,
    entity := { category := "principal", value := "111111111111" },
    actions := [] }

/-- A context whose path query finds nothing at any key. -/
def cxE : Ctx Nat Nat :=
  { policyKeys := ["Policy"],
    query := fun _ _ => QueryResult.notFound,
    parsePolicy := fun _ => policyA,
    arn := fun _ => { service := none, root := false },
    inspectEntity := fun _ _ => [] }

/-! Membership characterizations of the checks' finding lists. -/

theorem mem_ite_singleton {α : Type} {c : Prop} [Decidable c] {x a : α} :
    (a ∈ if c then ([x] : List α) else []) ↔ c ∧ a = x := by
  by_cases h : c <;> simp [h]

theorem mem_ite_nil {α : Type} {c : Prop} [Decidable c] {l : List α} {a : α} :
    (a ∈ if c then ([] : List α) else l) ↔ ¬c ∧ a ∈ l := by
  by_cases h : c <;> simp [h]

theorem mem_check_friendly_iff {ctx : Ctx I D} {item : I} {f : Finding I} :
    f ∈ check_friendly_cross_account ctx item ↔
      ∃ p ∈ load_policies ctx item, ∃ s ∈ p.statements, s.effect = "Allow" ∧
        ∃ w ∈ s.whosAllowed,
          "FRIENDLY" ∈ ctx.inspectEntity (Entity.fromTuple w) item ∧
            f = { category := Category.friendly, item := item,
                  entity := Entity.fromTuple w, actions := s.actions } := by
  simp only [check_friendly_cross_account, List.mem_flatMap, mem_ite_nil,
    mem_ite_singleton, not_ne_iff]

theorem mem_check_thirdparty_iff {ctx : Ctx I D} {item : I} {f : Finding I} :
    f ∈ check_thirdparty_cross_account ctx item ↔
      ∃ p ∈ load_policies ctx item, ∃ s ∈ p.statements, s.effect = "Allow" ∧
        ∃ w ∈ s.whosAllowed,
          "THIRDPARTY" ∈ ctx.inspectEntity (Entity.fromTuple w) item ∧
            f = { category := Category.thirdparty, item := item,
                  entity := Entity.fromTuple w, actions := s.actions } := by
  simp only [check_thirdparty_cross_account, List.mem_flatMap, mem_ite_nil,
    mem_ite_singleton, not_ne_iff]

theorem mem_check_unknown_iff {ctx : Ctx I D} {item : I} {f : Finding I} :
    f ∈ check_unknown_cross_account ctx item ↔
      ∃ p ∈ load_policies ctx item, p.isInternetAccessible = false ∧
        ∃ s ∈ p.statements, s.effect = "Allow" ∧
          ∃ w ∈ s.whosAllowed,
            ¬(w.value = "*" ∧ w.category = "principal") ∧
            ¬(w.category = "principal" ∧ (ctx.arn w.value).service.isSome = true) ∧
            "UNKNOWN" ∈ ctx.inspectEntity (Entity.fromTuple w) item ∧
              f = { category := Category.unknown, item := item,
                    entity := Entity.fromTuple w, actions := s.actions } := by
  simp only [check_unknown_cross_account, List.mem_flatMap, mem_ite_nil,
    mem_ite_singleton, not_ne_iff, Bool.not_eq_true]

theorem mem_check_root_iff {ctx : Ctx I D} {item : I} {f : Finding I} :
    f ∈ check_root_cross_account ctx item ↔
      ∃ p ∈ load_policies ctx item, ∃ s ∈ p.statements, s.effect = "Allow" ∧
        ∃ w ∈ s.whosAllowed,
          w.category ∈ (["arn", "principal"] : List String) ∧
          ¬w.value = "*" ∧
          ((ctx.arn w.value).root = true ∧
            ∃ t ∈ ctx.inspectEntity (Entity.fromTuple w) item,
              t ∈ (["FRIENDLY", "THIRDPARTY", "UNKNOWN"] : List String)) ∧
          f = { category := Category.rootCrossAccount, item := item,
                entity := Entity.fromTuple w, actions := s.actions } := by
  simp only [check_root_cross_account, List.mem_flatMap, mem_ite_nil,
    mem_ite_singleton, not_ne_iff, not_not]

theorem mem_check_internet_iff {ctx : Ctx I D} {item : I} {f : Finding I} :
    f ∈ check_internet_accessible ctx item ↔
      ∃ p ∈ load_policies ctx item, p.isInternetAccessible = true ∧
        f = { category := Category.internet, item := item,
              entity := { category := "principal", value := "*" },
              actions := p.internetAccessibleActions } := by
  simp only [check_internet_accessible, List.mem_flatMap, mem_ite_singleton]

/-! Structural helper lemmas. -/

theorem flatMap_ite_eq_filter_map {α β : Type} {p : α → Prop} [DecidablePred p]
    {q : α → Bool} (hpq : ∀ a, q a = true ↔ p a) (g : α → β) (l : List α) :
    (l.flatMap fun a => if p a then [g a] else []) = (l.filter q).map g := by
  induction l with
  | nil => rfl
  | cons a l ih =>
    by_cases h : p a
    · simp only [List.flatMap_cons, if_pos h, ih,
        List.filter_cons_of_pos ((hpq a).mpr h), List.map_cons, List.singleton_append]
    · have hq : q a = false := by
        cases hqa : q a
        · rfl
        · exact absurd ((hpq a).mp hqa) h
      simp only [List.flatMap_cons, if_neg h, ih, List.filter_cons, hq,
        Bool.false_eq_true, if_false, List.nil_append]

theorem rootQualifies_iff {ctx : Ctx I D} {item : I} {w : Entity} :
    rootQualifies ctx item w = true ↔
      (w.category ∈ (["arn", "principal"] : List String) ∧
        ¬w.value = "*" ∧
        ((ctx.arn w.value).root = true ∧
          ∃ t ∈ ctx.inspectEntity (Entity.fromTuple w) item,
            t ∈ (["FRIENDLY", "THIRDPARTY", "UNKNOWN"] : List String))) := by
  simp only [rootQualifies, Bool.and_eq_true, Bool.or_eq_true, beq_iff_eq,
    bne_iff_ne, ne_eq, List.any_eq_true, List.mem_cons, List.mem_singleton,
    List.not_mem_nil, or_false]
  aesop

theorem load_policies_mapParse (ctx : Ctx I D) (g : Policy → Policy) (item : I) :
    load_policies (ctx.mapParse g) item = (load_policies ctx item).map g := by
  unfold load_policies
  rw [List.map_flatMap]
  refine congrArg _ (funext fun key => ?_)
  show (match (ctx.mapParse g).query item key with
      | .notFound => _ | .found (Raw.list _) => _ | .found _ => _) = _
  have hq : (ctx.mapParse g).query item key = ctx.query item key := rfl
  rw [hq]
  cases ctx.query item key with
  | notFound => rfl
  | found v =>
    cases v with
    | null => rfl
    | doc d => rfl
    | list ps =>
      show (ps.flatMap fun p => _) = _
      rw [List.map_flatMap]
      refine congrArg _ (funext fun p => ?_)
      by_cases hf : p.isFalsy
      · simp only [hf, if_true, List.map_nil]
      · cases p with
        | null => exact absurd rfl hf
        | doc d => simp only [hf, if_false, Bool.false_eq_true, List.map_cons, List.map_nil]; rfl
        | list pps =>
          simp only [hf, if_false, Bool.false_eq_true, List.map_map]
          rfl

theorem ctx_eq_of_pointwise {ctx1 ctx2 : Ctx I D}
    (hk : ctx1.policyKeys = ctx2.policyKeys)
    (hq : ∀ i k, ctx1.query i k = ctx2.query i k)
    (hp : ∀ d, ctx1.parsePolicy d = ctx2.parsePolicy d)
    (ha : ∀ v, ctx1.arn v = ctx2.arn v)
    (hi : ∀ e i, ctx1.inspectEntity e i = ctx2.inspectEntity e i) :
    ctx1 = ctx2 := by
  cases ctx1
  cases ctx2
  simp only [Ctx.mk.injEq]
  exact ⟨hk, funext fun i => funext (hq i), funext hp, funext ha,
    funext fun e => funext (hi e)⟩

theorem unknownWhoSkip_iff {ctx : Ctx I D} {who : Entity} :
    unknownWhoSkip ctx who = true ↔
      ((who.value = "*" ∧ who.category = "principal") ∨
        (who.category = "principal" ∧ (ctx.arn who.value).service.isSome = true)) := by
  simp [unknownWhoSkip, Bool.and_eq_true, Bool.or_eq_true, beq_iff_eq]

theorem flatMap_filter_eq_of_none {α β : Type} (q : α → Bool) (G : α → List β)
    (h : ∀ a, q a = false → G a = []) (l : List α) :
    (l.filter q).flatMap G = l.flatMap G := by
  induction l with
  | nil => rfl
  | cons a l ih =>
    cases hq : q a with
    | true => simp only [List.filter_cons_of_pos hq, List.flatMap_cons, ih]
    | false =>
      simp only [List.filter_cons, hq, Bool.false_eq_true, if_false,
        List.flatMap_cons, h a hq, List.nil_append, ih]

theorem statements_flatMap_dropDeny {β : Type} (p : Policy)
    (G : Statement → List β) (hG : ∀ s, s.effect = "Deny" → G s = []) :
    (Policy.dropDeny p).statements.flatMap G = p.statements.flatMap G := by
  refine flatMap_filter_eq_of_none _ G (fun s hs => hG s ?_) p.statements
  simpa using hs

theorem root_inner_eq (ctx : Ctx I D) (item : I) (s : Statement) (l : List Entity) :
    (l.flatMap fun who =>
      if who.category ∉ (["arn", "principal"] : List String) then []
      else if who.value = "*" then []
      else
        if (ctx.arn who.value).root = true ∧
            ∃ t ∈ ctx.inspectEntity (Entity.fromTuple who) item,
              t ∈ (["FRIENDLY", "THIRDPARTY", "UNKNOWN"] : List String) then
          [{ category := Category.rootCrossAccount, item := item,
             entity := Entity.fromTuple who, actions := s.actions }]
        else ([] : List (Finding I))) =
    ((l.filter (rootQualifies ctx item)).map fun who => (s, who)).map
      fun sw =>
        ({ category := Category.rootCrossAccount, item := item,
           entity := Entity.fromTuple sw.2, actions := sw.1.actions } : Finding I) := by
  induction l with
  | nil => rfl
  | cons w l ih =>
    rw [List.flatMap_cons]
    by_cases h : rootQualifies ctx item w = true
    · obtain ⟨h1, h2, h3⟩ := rootQualifies_iff.mp h
      rw [List.filter_cons_of_pos h, if_neg (not_not_intro h1), if_neg h2,
        if_pos h3, List.map_cons, List.map_cons, ih]
      rfl
    · have hf : rootQualifies ctx item w = false := by
        cases hq : rootQualifies ctx item w
        · rfl
        · exact absurd hq h
      rw [List.filter_cons, hf]
      simp only [Bool.false_eq_true, if_false]
      rw [← ih]
      by_cases h1 : w.category ∈ (["arn", "principal"] : List String)
      · rw [if_neg (not_not_intro h1)]
        by_cases h2 : w.value = "*"
        · rw [if_pos h2, List.nil_append]
        · rw [if_neg h2, if_neg fun h3 => h (rootQualifies_iff.mpr ⟨h1, h2, h3⟩),
            List.nil_append]
      · rw [if_pos h1, List.nil_append]

/-! The claims. -/

/-- C1 counterexample: an entity of category `arn` whose value the ARN
parser reports as an AWS service principal is still recorded by
`check_unknown_cross_account` when the registry tags it `UNKNOWN`, because
the service-principal skip only applies to entities of category
`principal`; so the claim that neither check ever records a finding for a
service-principal value is false. -/
theorem service_entity_nonprincipal_flagged_unknown :
    (cxA.arn "sns.amazonaws.com").service.isSome = true ∧
    check_unknown_cross_account cxA 0 = [findingA] ∧
    findingA.entity.value = "sns.amazonaws.com" ∧
    findingA.entity.category = "arn" :=
  ⟨rfl, rfl, rfl, rfl⟩

/-- C1 (amended): for every entity whose value the ARN parser reports as an
AWS service principal, `check_unknown_cross_account` records no finding for
it when its category is `principal`, and `check_root_cross_account` records
no finding for it whenever the parser does not also report the value as a
root identity (which it never does for a service principal). -/
theorem service_principal_entities_not_flagged (ctx : Ctx I D) (item : I)
    (v : String) (hs : (ctx.arn v).service.isSome = true) :
    (∀ f ∈ check_unknown_cross_account ctx item,
      ¬(f.entity.category = "principal" ∧ f.entity.value = v)) ∧
    ((ctx.arn v).root = false →
      ∀ f ∈ check_root_cross_account ctx item, f.entity.value ≠ v) := by
  constructor
  · rintro f hf ⟨hcat, hval⟩
    obtain ⟨p, hp, hpint, s, hsm, heff, w, hwm, h1, h2, h3, hfeq⟩ :=
      mem_check_unknown_iff.mp hf
    have hcat' : w.category = "principal" := by
      rw [hfeq] at hcat
      simpa [Entity.fromTuple] using hcat
    have hval' : w.value = v := by
      rw [hfeq] at hval
      simpa [Entity.fromTuple] using hval
    refine h2 ⟨hcat', ?_⟩
    rw [hval']
    exact hs
  · intro hroot f hf hval
    obtain ⟨p, hp, s, hsm, heff, w, hwm, hcats, hvalstar, ⟨hr, _⟩, hfeq⟩ :=
      mem_check_root_iff.mp hf
    have hval' : w.value = v := by
      rw [hfeq] at hval
      simpa [Entity.fromTuple] using hval
    rw [hval', hroot] at hr
    exact Bool.false_ne_true hr

/-- C1 witness: the amended theorem applied to `cxA`, the item `0` and the
value `sns.amazonaws.com`, whose membership hypotheses evaluate by
computation. -/
theorem service_principal_entities_not_flagged_witness :
    ¬(findingA.entity.category = "principal" ∧
      findingA.entity.value = "sns.amazonaws.com") :=
  (service_principal_entities_not_flagged cxA 0 "sns.amazonaws.com" rfl).1
    findingA (List.Mem.head _)

/-- C2 counterexample: under `cxB` the single policy is internet
accessible, so `check_unknown_cross_account` records nothing, while the
generic check instantiated with tag `UNKNOWN` and only the two entity-level
skips records a finding for the same (policy, Allow-statement, entity)
triple the friendly check records for; the entity passes both claimed
exclusions and is tagged `UNKNOWN`, so the two claimed-equal checks differ
on a third point, the internet-accessible policy skip. -/
theorem unknown_check_not_generic_without_policy_skip :
    check_unknown_cross_account cxB 0 = [] ∧
    genericCrossAccount cxB 0 "UNKNOWN" Category.unknown (fun _ => false)
      (unknownWhoSkip cxB) = [findingBU] ∧
    check_friendly_cross_account cxB 0 = [findingB] ∧
    unknownWhoSkip cxB findingBU.entity = false ∧
    "UNKNOWN" ∈ cxB.inspectEntity findingBU.entity 0 :=
  ⟨rfl, rfl, rfl, rfl, by decide⟩

/-- C2 (amended): the three tag checks are the generic check instantiated
with their tags; the friendly and thirdparty checks skip nothing, while
the unknown check additionally skips every internet-accessible policy
before statement iteration and skips the synthetic wildcard principal and
category-`principal` AWS service principals before classification. -/
theorem cross_account_checks_are_generic_instances (ctx : Ctx I D) (item : I) :
    check_friendly_cross_account ctx item =
      genericCrossAccount ctx item "FRIENDLY" Category.friendly
        (fun _ => false) (fun _ => false) ∧
    check_thirdparty_cross_account ctx item =
      genericCrossAccount ctx item "THIRDPARTY" Category.thirdparty
        (fun _ => false) (fun _ => false) ∧
    check_unknown_cross_account ctx item =
      genericCrossAccount ctx item "UNKNOWN" Category.unknown
        (fun policy => policy.isInternetAccessible) (unknownWhoSkip ctx) := by
  refine ⟨rfl, rfl, ?_⟩
  unfold check_unknown_cross_account genericCrossAccount
  refine congrArg _ (funext fun policy => ?_)
  by_cases hint : policy.isInternetAccessible = true
  · rw [if_pos hint, if_pos hint]
  · rw [if_neg hint, if_neg hint]
    refine congrArg _ (funext fun s => ?_)
    by_cases heff : s.effect ≠ "Allow"
    · rw [if_pos heff, if_pos heff]
    · rw [if_neg heff, if_neg heff]
      refine congrArg _ (funext fun who => ?_)
      by_cases h1 : who.value = "*" ∧ who.category = "principal"
      · rw [if_pos h1, if_pos (unknownWhoSkip_iff.mpr (Or.inl h1))]
      · by_cases h2 : who.category = "principal" ∧
            (ctx.arn who.value).service.isSome = true
        · rw [if_neg h1, if_pos h2, if_pos (unknownWhoSkip_iff.mpr (Or.inr h2))]
        · have hskip : ¬unknownWhoSkip ctx who = true := by
            rw [unknownWhoSkip_iff]
            tauto
          rw [if_neg h1, if_neg h2, if_neg hskip]

/-- C5: `check_root_cross_account` records exactly one finding, with the
entity and the statement's actions, per qualifying (Allow statement,
granted entity) pair — category `arn` or `principal`, non-wildcard value,
root ARN, classification intersecting the three tags — and none
otherwise. -/
theorem root_check_eq_map_rootQualifying (ctx : Ctx I D) (item : I) :
    check_root_cross_account ctx item =
      (rootQualifying ctx item).map fun sw =>
        { category := Category.rootCrossAccount, item := item,
          entity := Entity.fromTuple sw.2, actions := sw.1.actions } := by
  unfold check_root_cross_account rootQualifying
  rw [List.map_flatMap]
  refine congrArg _ (funext fun policy => ?_)
  rw [List.map_flatMap]
  refine congrArg _ (funext fun s => ?_)
  by_cases heff : s.effect ≠ "Allow"
  · rw [if_pos heff, if_pos heff]
    rfl
  · rw [if_neg heff, if_neg heff]
    exact root_inner_eq ctx item s s.whosAllowed

/-- C3: no check ever records a finding derived from a `Deny` statement:
every finding of the four statement-driven checks originates from a
statement with effect `Allow` (carrying its actions and one of its allowed
entities), and removing every `Deny` statement from every parsed policy
leaves the output of all five checks unchanged. -/
theorem deny_statements_yield_no_findings (ctx : Ctx I D) (item : I) :
    (∀ f ∈ check_friendly_cross_account ctx item,
      ∃ p ∈ load_policies ctx item, ∃ s ∈ p.statements, s.effect = "Allow" ∧
        f.actions = s.actions ∧ ∃ w ∈ s.whosAllowed, f.entity = Entity.fromTuple w) ∧
    (∀ f ∈ check_thirdparty_cross_account ctx item,
      ∃ p ∈ load_policies ctx item, ∃ s ∈ p.statements, s.effect = "Allow" ∧
        f.actions = s.actions ∧ ∃ w ∈ s.whosAllowed, f.entity = Entity.fromTuple w) ∧
    (∀ f ∈ check_unknown_cross_account ctx item,
      ∃ p ∈ load_policies ctx item, ∃ s ∈ p.statements, s.effect = "Allow" ∧
        f.actions = s.actions ∧ ∃ w ∈ s.whosAllowed, f.entity = Entity.fromTuple w) ∧
    (∀ f ∈ check_root_cross_account ctx item,
      ∃ p ∈ load_policies ctx item, ∃ s ∈ p.statements, s.effect = "Allow" ∧
        f.actions = s.actions ∧ ∃ w ∈ s.whosAllowed, f.entity = Entity.fromTuple w) ∧
    check_internet_accessible (ctx.mapParse Policy.dropDeny) item =
      check_internet_accessible ctx item ∧
    check_friendly_cross_account (ctx.mapParse Policy.dropDeny) item =
      check_friendly_cross_account ctx item ∧
    check_thirdparty_cross_account (ctx.mapParse Policy.dropDeny) item =
      check_thirdparty_cross_account ctx item ∧
    check_unknown_cross_account (ctx.mapParse Policy.dropDeny) item =
      check_unknown_cross_account ctx item ∧
    check_root_cross_account (ctx.mapParse Policy.dropDeny) item =
      check_root_cross_account ctx item := by
  refine ⟨?_, ?_, ?_, ?_, ?_, ?_, ?_, ?_, ?_⟩
  · intro f hf
    obtain ⟨p, hp, s, hsm, heff, w, hwm, htag, hfeq⟩ := mem_check_friendly_iff.mp hf
    exact ⟨p, hp, s, hsm, heff, by rw [hfeq], w, hwm, by rw [hfeq]⟩
  · intro f hf
    obtain ⟨p, hp, s, hsm, heff, w, hwm, htag, hfeq⟩ := mem_check_thirdparty_iff.mp hf
    exact ⟨p, hp, s, hsm, heff, by rw [hfeq], w, hwm, by rw [hfeq]⟩
  · intro f hf
    obtain ⟨p, hp, hpint, s, hsm, heff, w, hwm, h1, h2, h3, hfeq⟩ :=
      mem_check_unknown_iff.mp hf
    exact ⟨p, hp, s, hsm, heff, by rw [hfeq], w, hwm, by rw [hfeq]⟩
  · intro f hf
    obtain ⟨p, hp, s, hsm, heff, w, hwm, hcats, hvalstar, hcond, hfeq⟩ :=
      mem_check_root_iff.mp hf
    exact ⟨p, hp, s, hsm, heff, by rw [hfeq], w, hwm, by rw [hfeq]⟩
  · unfold check_internet_accessible
    rw [load_policies_mapParse, List.flatMap_map]
    exact congrArg _ (funext fun p => rfl)
  · unfold check_friendly_cross_account
    rw [load_policies_mapParse, List.flatMap_map]
    refine congrArg _ (funext fun policy => ?_)
    exact statements_flatMap_dropDeny policy _ fun s hs => by rw [hs]; rfl
  · unfold check_thirdparty_cross_account
    rw [load_policies_mapParse, List.flatMap_map]
    refine congrArg _ (funext fun policy => ?_)
    exact statements_flatMap_dropDeny policy _ fun s hs => by rw [hs]; rfl
  · unfold check_unknown_cross_account
    rw [load_policies_mapParse, List.flatMap_map]
    refine congrArg _ (funext fun policy => ?_)
    by_cases hint : policy.isInternetAccessible = true
    · rw [if_pos hint, if_pos (show (Policy.dropDeny policy).isInternetAccessible =
        true from hint)]
    · rw [if_neg hint, if_neg (show ¬(Policy.dropDeny policy).isInternetAccessible =
        true from hint)]
      exact statements_flatMap_dropDeny policy _ fun s hs => by rw [hs]; rfl
  · unfold check_root_cross_account
    rw [load_policies_mapParse, List.flatMap_map]
    refine congrArg _ (funext fun policy => ?_)
    exact statements_flatMap_dropDeny policy _ fun s hs => by rw [hs]; rfl

/-- C3 witness: under `cxB` the friendly finding originates from an `Allow`
statement of a loaded policy. -/
theorem deny_statements_yield_no_findings_witness :
    ∃ p ∈ load_policies cxB 0, ∃ s ∈ p.statements, s.effect = "Allow" ∧
      findingB.actions = s.actions ∧
      ∃ w ∈ s.whosAllowed, findingB.entity = Entity.fromTuple w :=
  (deny_statements_yield_no_findings cxB 0).1 findingB (List.Mem.head _)

/-- C4: `check_internet_accessible` records exactly one `internet` finding,
carrying the synthetic everyone entity and the policy's internet-accessible
actions, per loaded policy whose internet verdict is true and none for the
others; and its output only depends on the policies' two whole-policy
internet verdicts, not on their statements. -/
theorem internet_check_one_finding_per_accessible_policy (ctx : Ctx I D) (item : I) :
    check_internet_accessible ctx item =
      ((load_policies ctx item).filter (fun p => p.isInternetAccessible)).map
        (fun p => { category := Category.internet, item := item,
                    entity := { category := "principal", value := "*" },
                    actions := p.internetAccessibleActions }) ∧
    ∀ g : Policy → Policy,
      (∀ p, (g p).isInternetAccessible = p.isInternetAccessible ∧
            (g p).internetAccessibleActions = p.internetAccessibleActions) →
      check_internet_accessible (ctx.mapParse g) item =
        check_internet_accessible ctx item := by
  constructor
  · unfold check_internet_accessible
    exact flatMap_ite_eq_filter_map (fun p => Iff.rfl) _ _
  · intro g hg
    unfold check_internet_accessible
    rw [load_policies_mapParse, List.flatMap_map]
    refine congrArg _ (funext fun p => ?_)
    rw [(hg p).1, (hg p).2]

/-- C4 witness: the statement-independence part applied to `cxB` with the
transformation that erases every statement. -/
theorem internet_check_one_finding_per_accessible_policy_witness :
    check_internet_accessible
        (cxB.mapParse fun p => { p with statements := [] }) 0 =
      check_internet_accessible cxB 0 :=
  (internet_check_one_finding_per_accessible_policy cxB 0).2
    (fun p => { p with statements := [] }) (fun _ => ⟨rfl, rfl⟩)

/-- C6: when the path query locates nothing at any configured key — the
not-found signal or an empty match list — `load_policies` returns the
empty sequence and none of the five checks records any finding. -/
theorem no_located_policy_no_findings (ctx : Ctx I D) (item : I)
    (h : ∀ key ∈ ctx.policyKeys,
      ctx.query item key = QueryResult.notFound ∨
      ctx.query item key = QueryResult.found (Raw.list [])) :
    load_policies ctx item = [] ∧
    check_internet_accessible ctx item = [] ∧
    check_friendly_cross_account ctx item = [] ∧
    check_thirdparty_cross_account ctx item = [] ∧
    check_unknown_cross_account ctx item = [] ∧
    check_root_cross_account ctx item = [] := by
  have hload : load_policies ctx item = [] := by
    unfold load_policies
    rw [List.flatMap_eq_nil_iff]
    intro key hk
    rcases h key hk with h' | h'
    · rw [h']
    · rw [h']
      rfl
  refine ⟨hload, ?_, ?_, ?_, ?_, ?_⟩ <;>
    simp only [check_internet_accessible, check_friendly_cross_account,
      check_thirdparty_cross_account, check_unknown_cross_account,
      check_root_cross_account, hload, List.flatMap_nil]

/-- C6 witness: the theorem applied to `cxE`, whose query always reports
not-found. -/
theorem no_located_policy_no_findings_witness :
    load_policies cxE 0 = [] ∧
    check_internet_accessible cxE 0 = [] ∧
    check_friendly_cross_account cxE 0 = [] ∧
    check_thirdparty_cross_account cxE 0 = [] ∧
    check_unknown_cross_account cxE 0 = [] ∧
    check_root_cross_account cxE 0 = [] :=
  no_located_policy_no_findings cxE 0 fun _ _ => Or.inl rfl

/-- C7: `load_policies` is the concatenation, in configured-path order, of
the by-shape processing of each located value: absent paths contribute
nothing, a located sequence is flattened one level with falsy entries
skipped and each remaining element wrapped as a policy, and any other
located value is wrapped as a single policy. -/
theorem load_policies_concat_processLocated (ctx : Ctx I D) (item : I) :
    load_policies ctx item =
      (ctx.policyKeys.map fun key =>
        processLocated ctx.parsePolicy (ctx.query item key)).flatten := by
  unfold load_policies
  rw [List.flatMap_def]
  refine congrArg List.flatten
    (congrFun (congrArg List.map (funext fun key => ?_)) ctx.policyKeys)
  cases hq : ctx.query item key with
  | notFound => rfl
  | found v =>
    cases v with
    | null => rfl
    | doc d => rfl
    | list ps => rfl

/-- C8 counterexample: a statement whose action list is empty still yields
a finding, whose action list is then empty, so the invariant that every
finding carries a non-empty action list is false. -/
theorem finding_with_empty_actions_exists :
    check_friendly_cross_account cxC 0 = [findingC] ∧ findingC.actions = [] :=
  ⟨rfl, rfl⟩

/-- C8 (amended): every finding of the five checks references the audited
item and one entity and carries the action list of exactly one statement
(for the internet check, the policy's internet-accessible action list),
which is non-empty whenever the originating statement's action list
(respectively the policy's internet-accessible action list) is
non-empty. -/
theorem findings_reference_one_item_entity_statement (ctx : Ctx I D) (item : I) :
    (∀ f ∈ check_internet_accessible ctx item,
      f.item = item ∧ f.entity = { category := "principal", value := "*" } ∧
      ∃ p ∈ load_policies ctx item, f.actions = p.internetAccessibleActions) ∧
    (∀ f ∈ check_friendly_cross_account ctx item,
      f.item = item ∧ ∃ p ∈ load_policies ctx item, ∃ s ∈ p.statements,
        s.effect = "Allow" ∧ f.actions = s.actions ∧
        ∃ w ∈ s.whosAllowed, f.entity = Entity.fromTuple w) ∧
    (∀ f ∈ check_thirdparty_cross_account ctx item,
      f.item = item ∧ ∃ p ∈ load_policies ctx item, ∃ s ∈ p.statements,
        s.effect = "Allow" ∧ f.actions = s.actions ∧
        ∃ w ∈ s.whosAllowed, f.entity = Entity.fromTuple w) ∧
    (∀ f ∈ check_unknown_cross_account ctx item,
      f.item = item ∧ ∃ p ∈ load_policies ctx item, ∃ s ∈ p.statements,
        s.effect = "Allow" ∧ f.actions = s.actions ∧
        ∃ w ∈ s.whosAllowed, f.entity = Entity.fromTuple w) ∧
    (∀ f ∈ check_root_cross_account ctx item,
      f.item = item ∧ ∃ p ∈ load_policies ctx item, ∃ s ∈ p.statements,
        s.effect = "Allow" ∧ f.actions = s.actions ∧
        ∃ w ∈ s.whosAllowed, f.entity = Entity.fromTuple w) ∧
    ((∀ p ∈ load_policies ctx item,
        p.internetAccessibleActions ≠ [] ∧ ∀ s ∈ p.statements, s.actions ≠ []) →
      ∀ f ∈ check_internet_accessible ctx item ++
          check_friendly_cross_account ctx item ++
          check_thirdparty_cross_account ctx item ++
          check_unknown_cross_account ctx item ++
          check_root_cross_account ctx item,
        f.actions ≠ []) := by
  refine ⟨?_, ?_, ?_, ?_, ?_, ?_⟩
  · intro f hf
    obtain ⟨p, hp, hv, hfeq⟩ := mem_check_internet_iff.mp hf
    exact ⟨by rw [hfeq], by rw [hfeq], p, hp, by rw [hfeq]⟩
  · intro f hf
    obtain ⟨p, hp, s, hsm, heff, w, hwm, htag, hfeq⟩ := mem_check_friendly_iff.mp hf
    exact ⟨by rw [hfeq], p, hp, s, hsm, heff, by rw [hfeq], w, hwm, by rw [hfeq]⟩
  · intro f hf
    obtain ⟨p, hp, s, hsm, heff, w, hwm, htag, hfeq⟩ := mem_check_thirdparty_iff.mp hf
    exact ⟨by rw [hfeq], p, hp, s, hsm, heff, by rw [hfeq], w, hwm, by rw [hfeq]⟩
  · intro f hf
    obtain ⟨p, hp, hpint, s, hsm, heff, w, hwm, h1, h2, h3, hfeq⟩ :=
      mem_check_unknown_iff.mp hf
    exact ⟨by rw [hfeq], p, hp, s, hsm, heff, by rw [hfeq], w, hwm, by rw [hfeq]⟩
  · intro f hf
    obtain ⟨p, hp, s, hsm, heff, w, hwm, hcats, hvalstar, hcond, hfeq⟩ :=
      mem_check_root_iff.mp hf
    exact ⟨by rw [hfeq], p, hp, s, hsm, heff, by rw [hfeq], w, hwm, by rw [hfeq]⟩
  · intro hne f hf
    rcases List.mem_append.mp hf with hf' | hf'
    · rcases List.mem_append.mp hf' with hf'' | hf''
      · rcases List.mem_append.mp hf'' with hf3 | hf3
        · rcases List.mem_append.mp hf3 with hf4 | hf4
          · obtain ⟨p, hp, hv, hfeq⟩ := mem_check_internet_iff.mp hf4
            rw [hfeq]
            exact (hne p hp).1
          · obtain ⟨p, hp, s, hsm, heff, w, hwm, htag, hfeq⟩ :=
              mem_check_friendly_iff.mp hf4
            rw [hfeq]
            exact (hne p hp).2 s hsm
        · obtain ⟨p, hp, s, hsm, heff, w, hwm, htag, hfeq⟩ :=
            mem_check_thirdparty_iff.mp hf3
          rw [hfeq]
          exact (hne p hp).2 s hsm
      · obtain ⟨p, hp, hpint, s, hsm, heff, w, hwm, h1, h2, h3, hfeq⟩ :=
          mem_check_unknown_iff.mp hf''
        rw [hfeq]
        exact (hne p hp).2 s hsm
    · obtain ⟨p, hp, s, hsm, heff, w, hwm, hcats, hvalstar, hcond, hfeq⟩ :=
        mem_check_root_iff.mp hf'
      rw [hfeq]
      exact (hne p hp).2 s hsm

/-- C8 witness: the friendly part of the amended theorem applied to `cxB`
and its recorded finding. -/
theorem findings_reference_one_item_entity_statement_witness :
    findingB.item = 0 ∧ ∃ p ∈ load_policies cxB 0, ∃ s ∈ p.statements,
      s.effect = "Allow" ∧ findingB.actions = s.actions ∧
      ∃ w ∈ s.whosAllowed, findingB.entity = Entity.fromTuple w :=
  (findings_reference_one_item_entity_statement cxB 0).2.1
    findingB (List.Mem.head _)

/-- C9: the checks are deterministic: two auditor contexts with the same
configured paths and extensionally equal query, parser, ARN and registry
collaborators record the same findings, in the same order, for the same
item, hence identical multisets across two runs. -/
theorem checks_deterministic_pointwise (ctx1 ctx2 : Ctx I D) (item : I)
    (hk : ctx1.policyKeys = ctx2.policyKeys)
    (hq : ∀ i k, ctx1.query i k = ctx2.query i k)
    (hp : ∀ d, ctx1.parsePolicy d = ctx2.parsePolicy d)
    (ha : ∀ v, ctx1.arn v = ctx2.arn v)
    (hi : ∀ e i, ctx1.inspectEntity e i = ctx2.inspectEntity e i) :
    check_internet_accessible ctx1 item = check_internet_accessible ctx2 item ∧
    check_friendly_cross_account ctx1 item = check_friendly_cross_account ctx2 item ∧
    check_thirdparty_cross_account ctx1 item = check_thirdparty_cross_account ctx2 item ∧
    check_unknown_cross_account ctx1 item = check_unknown_cross_account ctx2 item ∧
    check_root_cross_account ctx1 item = check_root_cross_account ctx2 item := by
  have hctx : ctx1 = ctx2 := ctx_eq_of_pointwise hk hq hp ha hi
  subst hctx
  exact ⟨rfl, rfl, rfl, rfl, rfl⟩

/-- C9 witness: the theorem applied to the extensionally equal contexts
`cxB` and `cxB2`, whose agreement hypotheses all evaluate by
computation. -/
theorem checks_deterministic_pointwise_witness :
    check_internet_accessible cxB 0 = check_internet_accessible cxB2 0 ∧
    check_friendly_cross_account cxB 0 = check_friendly_cross_account cxB2 0 ∧
    check_thirdparty_cross_account cxB 0 = check_thirdparty_cross_account cxB2 0 ∧
    check_unknown_cross_account cxB 0 = check_unknown_cross_account cxB2 0 ∧
    check_root_cross_account cxB 0 = check_root_cross_account cxB2 0 :=
  checks_deterministic_pointwise cxB cxB2 0 rfl (fun _ _ => rfl) (fun _ => rfl)
    (fun _ => rfl) (fun _ _ => rfl)

/-- C10: every finding of `check_unknown_cross_account` originates from a
policy whose internet verdict is false, and when every loaded policy is
internet accessible the check records nothing at all, whatever the
registry returns. -/
theorem unknown_check_skips_internet_accessible_policies (ctx : Ctx I D) (item : I) :
    (∀ f ∈ check_unknown_cross_account ctx item,
      ∃ p ∈ load_policies ctx item, p.isInternetAccessible = false ∧
        ∃ s ∈ p.statements, s.effect = "Allow" ∧
          ∃ w ∈ s.whosAllowed, f.entity = Entity.fromTuple w ∧
            f.actions = s.actions) ∧
    ((∀ p ∈ load_policies ctx item, p.isInternetAccessible = true) →
      check_unknown_cross_account ctx item = []) := by
  constructor
  · intro f hf
    obtain ⟨p, hp, hpint, s, hsm, heff, w, hwm, h1, h2, h3, hfeq⟩ :=
      mem_check_unknown_iff.mp hf
    exact ⟨p, hp, hpint, s, hsm, heff, w, hwm, by rw [hfeq], by rw [hfeq]⟩
  · intro hall
    rw [List.eq_nil_iff_forall_not_mem]
    intro f hf
    obtain ⟨p, hp, hpint, _⟩ := mem_check_unknown_iff.mp hf
    rw [hall p hp] at hpint
    simp at hpint

/-- C10 witness: under `cxB`, whose single loaded policy is internet
accessible, the unknown check records nothing although its only entity is
non-wildcard, is not a service principal and is tagged `UNKNOWN`. -/
theorem unknown_check_skips_internet_accessible_policies_witness :
    check_unknown_cross_account cxB 0 = [] :=
  (unknown_check_skips_internet_accessible_policies cxB 0).2 (by decide)

end ResourcePolicyAuditor
